import Mathlib

/-!
Shallow embedding of `run_pointnet.py`, a training/evaluation driver for a
PointNet-family semantic-segmentation model.  Tensors are modelled as nested
lists of rationals, the model as a record carrying its `training` flag, its
parameter vector and a pure forward function, the evaluation routine as a fold
over the batch list, and Python exceptions as `Except.error`.  The sklearn
metric functions (`precision_score`, `recall_score`, `accuracy_score`) and the
`DataLoader` batching behaviour are external library collaborators and are
modelled here from their documented semantics.
-/

set_option autoImplicit false

namespace RunPointnet

/-- Point of a point cloud: the three coordinates used by the scatter plots. -/
abbrev Point := ℚ × ℚ × ℚ

/-- Point cloud: one sample's ordered list of 3D points. -/
abbrev PointCloud := List Point

/-- Batch yielded by a loader: stacked point clouds (`data`, shape S×N×3) and
per-point integer labels (`labels`, shape S×N). -/
structure Batch where
  data : List PointCloud
  labels : List (List Nat)

/-- Segmentation model state: the `training`/eval flag toggled by
`model.train()` and `model.eval()`, the mutable parameter vector, and the pure
forward pass `params → data → (outputs, aux)` mirroring
`outputs, _ = model(data)` with outputs of shape S×N×C. -/
structure SegModel where
  training : Bool
  params : List ℚ
  forward : List ℚ → List PointCloud → List (List (List ℚ)) × List ℚ

/-- Loss function `criterion(outputs, labels)` returning a scalar. -/
abbrev Criterion := List (List (List ℚ)) → List (List Nat) → ℚ

/-- Auxiliary loop of `argmaxIdx`: carries the best index/value so far and the
index of the head of the remaining list; a later element wins only when
strictly greater, so ties go to the first occurrence, as in `torch.argmax`. -/
def argmaxFrom (bestIdx : Nat) (bestVal : ℚ) (i : Nat) : List ℚ → Nat
  | [] => bestIdx
  | x :: xs => if bestVal < x then argmaxFrom i x (i + 1) xs
               else argmaxFrom bestIdx bestVal (i + 1) xs

/-- Index of the first maximal element of a list of scores (`torch.argmax`
over the last dimension of a single per-point score vector). -/
def argmaxIdx : List ℚ → Nat
  | [] => 0
  | x :: xs => argmaxFrom 0 x 1 xs

/-- `outputs.argmax(dim=2)`: per sample, per point, the index of the maximal
class score. -/
def argmaxDim2 (outputs : List (List (List ℚ))) : List (List Nat) :=
  outputs.map (fun row => row.map argmaxIdx)

/-- True-positive count for class `l` over aligned (true, predicted) pairs. -/
def tpCount (pairs : List (Nat × Nat)) (l : Nat) : Nat :=
  pairs.countP (fun q => q.1 == l && q.2 == l)

/-- Number of points predicted as class `l`. -/
def predCount (pairs : List (Nat × Nat)) (l : Nat) : Nat :=
  pairs.countP (fun q => q.2 == l)

/-- Number of points whose true label is class `l`. -/
def trueCount (pairs : List (Nat × Nat)) (l : Nat) : Nat :=
  pairs.countP (fun q => q.1 == l)

/-- Per-class precision with sklearn's default `zero_division=0`. -/
def precClass (pairs : List (Nat × Nat)) (l : Nat) : ℚ :=
  if predCount pairs l = 0 then 0
  else (tpCount pairs l : ℚ) / (predCount pairs l : ℚ)

/-- Per-class recall with sklearn's default `zero_division=0`. -/
def recallClass (pairs : List (Nat × Nat)) (l : Nat) : ℚ :=
  if trueCount pairs l = 0 then 0
  else (tpCount pairs l : ℚ) / (trueCount pairs l : ℚ)

/-- Class labels considered by sklearn when `labels=None`: the distinct values
occurring in either the true or the predicted label list. -/
def classLabels (yTrue yPred : List Nat) : List Nat :=
  (yTrue ++ yPred).dedup

/-- Model of `sklearn.metrics.precision_score(yTrue, yPred, average='macro')`:
unweighted mean of the per-class precisions over all observed classes. -/
def precision_score (yTrue yPred : List Nat) : ℚ :=
  let ls := classLabels yTrue yPred
  if ls.length = 0 then 0
  else (ls.map (precClass (yTrue.zip yPred))).sum / (ls.length : ℚ)

/-- Model of `sklearn.metrics.recall_score(yTrue, yPred, average='macro')`. -/
def recall_score (yTrue yPred : List Nat) : ℚ :=
  let ls := classLabels yTrue yPred
  if ls.length = 0 then 0
  else (ls.map (recallClass (yTrue.zip yPred))).sum / (ls.length : ℚ)

/-- Model of `sklearn.metrics.accuracy_score(yTrue, yPred)`: fraction of
aligned positions where prediction equals truth. -/
def accuracy_score (yTrue yPred : List Nat) : ℚ :=
  let pairs := yTrue.zip yPred
  if pairs.length = 0 then 0
  else (pairs.countP (fun q => q.1 == q.2) : ℚ) / (pairs.length : ℚ)

/-- One pop-up figure produced by `visualize_predictions`: the point cloud of
sample `i` together with the colour arguments `c=true_labels[i]` and
`c=predicted_labels[i]` of its two scatter series.  The colour type `γ` is
whatever the caller's label lists contain. -/
structure PlotFig (γ : Type) where
  pc : PointCloud
  trueColor : γ
  predColor : γ

/-- Model of `visualize_predictions`: iterates `i` over `range(len(point_clouds))`
and shows one figure per point cloud, whose two scatter series are coloured by
`true_labels[i]` and `predicted_labels[i]`.  `none` models the `IndexError`
raised when a label list is shorter than the point-cloud list. -/
def visualize_predictions {γ : Type} (point_clouds : List PointCloud)
    (true_labels predicted_labels : List γ) : Option (List (PlotFig γ)) :=
  if point_clouds.length ≤ true_labels.length ∧
     point_clouds.length ≤ predicted_labels.length then
    some ((point_clouds.zip (true_labels.zip predicted_labels)).map
      (fun x => ⟨x.1, x.2.1, x.2.2⟩))
  else none

/-- Accumulator of the evaluation loop: the four Python lists built up inside
`evaluate_model`, plus a record of the autograd mode each forward pass ran
under (`with torch.no_grad():` wraps the whole loop). -/
structure EvalAcc where
  losses : List ℚ
  all_labels : List (List Nat)
  all_preds : List (List Nat)
  point_clouds : List PointCloud
  gradFlags : List Bool

/-- Body of the `for data, labels in loader:` loop of `evaluate_model`:
moves the batch to the device (value-preserving), runs the forward pass,
appends the batch loss, extends the prediction rows (`argmax(dim=2)`), the
label rows and the stored point clouds. -/
def evalStep (m : SegModel) (criterion : Criterion) (gradMode : Bool)
    (acc : EvalAcc) (b : Batch) : EvalAcc :=
  let outputs := (m.forward m.params b.data).1
  let loss := criterion outputs b.labels
  { losses := acc.losses ++ [loss]
    all_labels := acc.all_labels ++ b.labels
    all_preds := acc.all_preds ++ argmaxDim2 outputs
    point_clouds := acc.point_clouds ++ b.data
    gradFlags := acc.gradFlags ++ [gradMode] }

/-- The evaluation loop over the whole loader. -/
def evalLoop (m : SegModel) (criterion : Criterion) (gradMode : Bool)
    (acc : EvalAcc) (loader : List Batch) : EvalAcc :=
  loader.foldl (evalStep m criterion gradMode) acc

/-- Effects of one `evaluate_model` call: the autograd mode of each forward
pass and the figures shown by the optional visualization step. -/
structure EvalLog where
  gradFlags : List Bool
  plots : List (PlotFig Nat)

/-- Model of `evaluate_model(model, loader, device, criterion, visualize)`:
switches the model to inference mode, runs the batch loop under disabled
gradient tracking, averages the per-batch losses (raising `ZeroDivisionError`
on an empty loader), flattens the accumulated label/prediction rows, computes
macro precision, macro recall and accuracy, optionally visualizes, and returns
the model state after the call, the effect log, and either the four-tuple of
metrics or the raised error. -/
def evaluate_model (model : SegModel) (loader : List Batch) (device : String)
    (criterion : Criterion) (visualize : Bool := false) :
    SegModel × EvalLog × Except String (ℚ × ℚ × ℚ × ℚ) :=
  let m := { model with training := false }
  let acc := evalLoop m criterion false ⟨[], [], [], [], []⟩ loader
  if acc.losses.length = 0 then
    (m, ⟨acc.gradFlags, []⟩, Except.error "ZeroDivisionError: division by zero")
  else
    let avg_loss := acc.losses.sum / (acc.losses.length : ℚ)
    let labelsFlat := acc.all_labels.flatten
    let predsFlat := acc.all_preds.flatten
    let precision := precision_score labelsFlat predsFlat
    let recl := recall_score labelsFlat predsFlat
    let accuracy := accuracy_score labelsFlat predsFlat
    match (if visualize then visualize_predictions acc.point_clouds labelsFlat predsFlat
           else some []) with
    | none => (m, ⟨acc.gradFlags, []⟩, Except.error "IndexError: list index out of range")
    | some plots =>
        (m, ⟨acc.gradFlags, plots⟩, Except.ok (avg_loss, precision, recl, accuracy))

/-- The model as mutated by `model.eval()`: only the training flag changes. -/
def inferenceModel (m : SegModel) : SegModel := { m with training := false }

/-- Outputs of the forward pass on one batch. -/
def batchOutputs (m : SegModel) (b : Batch) : List (List (List ℚ)) :=
  (m.forward m.params b.data).1

/-- Per-batch losses of an evaluation pass, in loader order. -/
def batchLosses (m : SegModel) (criterion : Criterion) (loader : List Batch) : List ℚ :=
  loader.map (fun b => criterion (batchOutputs m b) b.labels)

/-- Prediction rows of one batch: arg-max of the outputs over the class
dimension, one row of per-point predicted labels per sample. -/
def batchPredRows (m : SegModel) (b : Batch) : List (List Nat) :=
  argmaxDim2 (batchOutputs m b)

/-- Accumulated prediction rows of the whole pass. -/
def predRows (m : SegModel) (loader : List Batch) : List (List Nat) :=
  (loader.map (batchPredRows m)).flatten

/-- Accumulated ground-truth label rows of the whole pass. -/
def labelRows (loader : List Batch) : List (List Nat) :=
  (loader.map Batch.labels).flatten

/-- Flattened predicted labels of the whole pass. -/
def predsFlat (m : SegModel) (loader : List Batch) : List Nat :=
  (predRows m loader).flatten

/-- Flattened ground-truth labels of the whole pass. -/
def labelsFlat (loader : List Batch) : List Nat :=
  (labelRows loader).flatten

/-- Stored point clouds of the whole pass. -/
def storedClouds (loader : List Batch) : List PointCloud :=
  (loader.map Batch.data).flatten

/-- One dataset element: a point cloud with its per-point labels. -/
abbrev Sample := PointCloud × List Nat

/-- Default collation of a batch of samples: stacks the point clouds and the
label rows. -/
def collate (ss : List Sample) : Batch :=
  ⟨ss.map Prod.fst, ss.map Prod.snd⟩

/-- Model of `DataLoader` batching with `drop_last=False`: splits the dataset
into consecutive chunks of size `B`, the last chunk possibly shorter.  An
empty dataset or `B = 0` yields no batches. -/
def toBatches {α : Type} (xs : List α) (B : Nat) : List (List α) :=
  if h : xs.length = 0 ∨ B = 0 then []
  else xs.take B :: toBatches (xs.drop B) B
termination_by xs.length
decreasing_by
  rw [List.length_drop]
  push_neg at h
  exact Nat.sub_lt (Nat.pos_of_ne_zero h.1) (Nat.pos_of_ne_zero h.2)

/-- A loader over a dataset: its batch list after collation. -/
def makeLoader (ds : List Sample) (B : Nat) : List Batch :=
  (toBatches ds B).map collate

/-- External collaborators of `main`: the directory listing, the
`Pointnet2dataset` constructor (file names, `num_points`, `augment`, split),
accelerator availability, `get_model(num_class=2)`, `get_loss()`, the
per-iteration reshuffling a `shuffle=True` loader applies to the train
dataset, and the autograd/optimizer services (gradient of the loss at the
current parameters, and one Adam update from learning rate, weight decay,
parameters and gradient). -/
structure Env where
  file_names : List String
  dataset : List String → Int → Bool → String → List Sample
  cudaAvailable : Bool
  initModel : SegModel
  get_loss : Criterion
  shuffleSeq : Nat → List Sample → List Sample
  backward : List ℚ → List PointCloud → List (List Nat) → List ℚ
  adamStep : ℚ → ℚ → List ℚ → List ℚ → List ℚ

/-- State threaded through one training epoch: current parameters, number of
`optimizer.step()` calls so far, and the per-batch losses printed. -/
structure TrainState where
  params : List ℚ
  stepCount : Nat
  lossTrace : List ℚ

/-- Body of the inner training loop: `optimizer.zero_grad()`, forward pass,
loss, `loss.backward()`, `optimizer.step()` — one parameter update and one
step count per yielded batch. -/
def trainStep (env : Env) (m : SegModel) (criterion : Criterion) (lr wd : ℚ)
    (st : TrainState) (b : Batch) : TrainState :=
  let outputs := (m.forward st.params b.data).1
  let loss := criterion outputs b.labels
  let grad := env.backward st.params b.data b.labels
  { params := env.adamStep lr wd st.params grad
    stepCount := st.stepCount + 1
    lossTrace := st.lossTrace ++ [loss] }

/-- One epoch of the training loop over the yielded batches. -/
def trainEpoch (env : Env) (m : SegModel) (criterion : Criterion) (lr wd : ℚ)
    (params0 : List ℚ) (batches : List Batch) : TrainState :=
  batches.foldl (trainStep env m criterion lr wd) ⟨params0, 0, []⟩

/-- Optimizer configuration built by `main`:
`torch.optim.Adam(model.parameters(), lr=..., weight_decay=...)`. -/
structure OptimConfig where
  kind : String
  lr : ℚ
  weight_decay : ℚ

/-- Observable record of one epoch: optimizer step count, printed batch
losses, and the train/validation evaluation results. -/
structure EpochLog where
  stepCount : Nat
  lossTrace : List ℚ
  trainMetrics : Except String (ℚ × ℚ × ℚ × ℚ)
  valMetrics : Except String (ℚ × ℚ × ℚ × ℚ)

/-- The per-epoch loop of `main`: sets the model to training mode, trains over
a freshly shuffled train loader, then evaluates on the (reshuffled) train
loader and on the validation loader.  The shuffle counter advances once per
iteration of the `shuffle=True` train loader (training pass and train
evaluation pass). -/
def epochLoop (env : Env) (criterion : Criterion) (device : String) (lr wd : ℚ)
    (B : Nat) (trainDs valDs : List Sample) :
    SegModel → Nat → Nat → List EpochLog × SegModel
  | m, _, 0 => ([], m)
  | m, e, k + 1 =>
    let mT := { m with training := true }
    let trainBatches := makeLoader (env.shuffleSeq (2 * e) trainDs) B
    let st := trainEpoch env mT criterion lr wd mT.params trainBatches
    let m2 := { mT with params := st.params }
    let r1 := evaluate_model m2 (makeLoader (env.shuffleSeq (2 * e + 1) trainDs) B)
      device criterion
    let r2 := evaluate_model r1.1 (makeLoader valDs B) device criterion
    let rest := epochLoop env criterion device lr wd B trainDs valDs r2.1 (e + 1) k
    (⟨st.stepCount, st.lossTrace, r1.2.2, r2.2.2⟩ :: rest.1, rest.2)

/-- Observable trace of one `main` run: chosen device, optimizer
configuration, per-epoch logs, final test metrics, and the final model. -/
structure Trace where
  device : String
  optim : OptimConfig
  epochLogs : List EpochLog
  testMetrics : Except String (ℚ × ℚ × ℚ × ℚ)
  finalModel : SegModel

/-- Parsed command-line settings (the fields of the argparse namespace). -/
structure Args where
  use_cpu : Bool
  gpu : String
  batch_size : Int
  model : String
  epoch : Int
  learning_rate : ℚ
  num_points : Int
  optimizer : String
  log_dir : Option String
  decay_rate : ℚ
  use_normals : Bool

/-- Model of `main(args)`: lists the dataset directory, builds the three
dataset views and loaders, picks the device, instantiates model, loss and the
Adam optimizer, runs `args.epoch` training epochs with per-epoch train and
validation evaluation, and finishes with a test evaluation. -/
def mainRun (env : Env) (args : Args) : Trace :=
  let file_names := env.file_names
  let trainDs := env.dataset file_names args.num_points true "train"
  let valDs := env.dataset file_names args.num_points false "val"
  let testDs := env.dataset file_names args.num_points false "test"
  let B := args.batch_size.toNat
  let device := if env.cudaAvailable && !args.use_cpu then "cuda" else "cpu"
  let model := env.initModel
  let criterion := env.get_loss
  let optim : OptimConfig := ⟨"Adam", args.learning_rate, args.decay_rate⟩
  let el := epochLoop env criterion device optim.lr optim.weight_decay B trainDs valDs
    model 0 args.epoch.toNat
  let rTest := evaluate_model el.2 (makeLoader testDs B) device criterion
  ⟨device, optim, el.1, rTest.2.2, rTest.1⟩

/-- Kind of value an argparse flag stores. -/
inductive ArgAction where
  | storeTrue
  | intArg
  | floatArg
  | strArg
deriving DecidableEq

/-- One registered command-line flag. -/
structure ArgSpec where
  flag : String
  action : ArgAction
deriving DecidableEq

/-- The flags registered by `parse_args`, in source order. -/
def argSpecs : List ArgSpec :=
  [⟨"--use_cpu", .storeTrue⟩, ⟨"--gpu", .strArg⟩, ⟨"--batch_size", .intArg⟩,
   ⟨"--model", .strArg⟩, ⟨"--epoch", .intArg⟩, ⟨"--learning_rate", .floatArg⟩,
   ⟨"--num_points", .intArg⟩, ⟨"--optimizer", .strArg⟩, ⟨"--log_dir", .strArg⟩,
   ⟨"--decay_rate", .floatArg⟩, ⟨"--use_normals", .storeTrue⟩]

/-- The defaults registered by `parse_args`. -/
def defaultArgs : Args :=
  { use_cpu := false, gpu := "0", batch_size := 24, model := "pointnet2_cls_ssg",
    epoch := 100, learning_rate := 1 / 1000, num_points := 1024,
    optimizer := "Adam", log_dir := none, decay_rate := 1 / 10000,
    use_normals := false }

/-- Model of Python `float()` restricted to plain decimal notation, the form a
user passes on the command line for the two float flags. -/
def parseDecimal (s : String) : Option ℚ :=
  match s.splitOn "." with
  | [w] => (w.toInt?).map (fun n => (n : ℚ))
  | [w, f] =>
    match w.toInt?, f.toNat? with
    | some ip, some fp =>
      let mag : ℚ := (ip.natAbs : ℚ) + (fp : ℚ) / ((10 : ℚ) ^ f.length)
      some (if s.startsWith "-" then -mag else mag)
    | _, _ => none
  | _ => none

/-- Model of argparse consumption of the registered flags in their canonical
`--flag value` form: a recognised flag updates its field (typed flags consume
and convert the next token), an unrecognised token is an argparse error. -/
def parseTokens : Args → List String → Option Args
  | a, [] => some a
  | a, "--use_cpu" :: rest => parseTokens { a with use_cpu := true } rest
  | a, "--use_normals" :: rest => parseTokens { a with use_normals := true } rest
  | a, "--gpu" :: v :: rest => parseTokens { a with gpu := v } rest
  | a, "--model" :: v :: rest => parseTokens { a with model := v } rest
  | a, "--optimizer" :: v :: rest => parseTokens { a with optimizer := v } rest
  | a, "--log_dir" :: v :: rest => parseTokens { a with log_dir := some v } rest
  | a, "--batch_size" :: v :: rest =>
    (v.toInt?).bind (fun n => parseTokens { a with batch_size := n } rest)
  | a, "--epoch" :: v :: rest =>
    (v.toInt?).bind (fun n => parseTokens { a with epoch := n } rest)
  | a, "--num_points" :: v :: rest =>
    (v.toInt?).bind (fun n => parseTokens { a with num_points := n } rest)
  | a, "--learning_rate" :: v :: rest =>
    (parseDecimal v).bind (fun q => parseTokens { a with learning_rate := q } rest)
  | a, "--decay_rate" :: v :: rest =>
    (parseDecimal v).bind (fun q => parseTokens { a with decay_rate := q } rest)
  | _, _ :: _ => none

/-- Model of `parse_args()`: parses the command line starting from the
registered defaults. -/
def parse_args (argv : List String) : Option Args :=
  parseTokens defaultArgs argv

/-- Forward pass assigning every point of every sample the same class-score
vector; used as a concrete test model. -/
def constForward (scores : List ℚ) :
    List ℚ → List PointCloud → List (List (List ℚ)) × List ℚ :=
  fun _ data => (data.map (fun pc => pc.map (fun _ => scores)), [])

/-- Concrete test model: two parameters, every point scored `[5, 1]`, so every
prediction is class 0. -/
def testModel : SegModel := ⟨true, [1, 2], constForward [5, 1]⟩

/-- Concrete three-point cloud. -/
def pcA : PointCloud := [(0, 0, 0), (1, 0, 0), (0, 1, 0)]

/-- Concrete two-point cloud. -/
def pcB : PointCloud := [(0, 0, 0), (2, 0, 0)]

/-- One-sample batch over `pcA` with per-point labels `[0, 1, 0]`. -/
def batchA : Batch := ⟨[pcA], [[0, 1, 0]]⟩

/-- One-sample batch over `pcB` whose labels `[0, 0]` agree with the
predictions of `testModel`. -/
def batchB : Batch := ⟨[pcB], [[0, 0]]⟩

/-- Loss function that is identically zero (trivially nonnegative). -/
def zeroCriterion : Criterion := fun _ _ => 0

/-- Concrete environment: three train samples, one validation and one test
sample, no accelerator, identity shuffle, and parameter-preserving
autograd/optimizer services. -/
def testEnv : Env :=
  { file_names := ["a.off"]
    dataset := fun _ _ _ split =>
      if split = "train" then [(pcA, [0, 1, 0]), (pcB, [0, 0]), (pcB, [1, 1])]
      else [(pcB, [0, 0])]
    cudaAvailable := false
    initModel := testModel
    get_loss := zeroCriterion
    shuffleSeq := fun _ l => l
    backward := fun p _ _ => p
    adamStep := fun _ _ p _ => p }

/-- Concrete argument record: batch size 2, one epoch, dead fields at their
defaults. -/
def argsW : Args := { defaultArgs with batch_size := 2, epoch := 1 }

/-- Argument record differing from `argsW` exactly in the five fields `main`
never reads: `optimizer`, `model`, `gpu`, `log_dir`, `use_normals`. -/
def argsW2 : Args :=
  { argsW with
    optimizer := "SGD", model := "other_model", gpu := "3",
    log_dir := some "logs", use_normals := true }

/-!  Helper lemmas. -/

/-- Closed form of the evaluation loop: starting from accumulator `acc`, the
loop appends the per-batch losses, the label and prediction rows, the stored
point clouds, and one grad-mode flag per batch. -/
theorem evalLoop_eq (m : SegModel) (c : Criterion) (g : Bool) (acc : EvalAcc)
    (loader : List Batch) :
    evalLoop m c g acc loader =
      ⟨acc.losses ++ batchLosses m c loader,
       acc.all_labels ++ labelRows loader,
       acc.all_preds ++ predRows m loader,
       acc.point_clouds ++ storedClouds loader,
       acc.gradFlags ++ List.replicate loader.length g⟩ := by
  induction loader generalizing acc with
  | nil => simp [evalLoop, batchLosses, labelRows, predRows, storedClouds]
  | cons b l ih =>
    simp only [evalLoop, List.foldl_cons] at *
    rw [ih]
    simp [evalStep, batchLosses, labelRows, predRows, storedClouds, batchOutputs,
      batchPredRows, List.replicate_succ]

/-- Closed form of `evaluate_model` on a non-empty loader without
visualization: inference-mode model, all-false grad flags, no plots, and the
four-tuple of mean loss and metrics over the flattened pass. -/
theorem evaluate_model_eq (model : SegModel) (loader : List Batch)
    (device : String) (criterion : Criterion) (h : loader ≠ []) :
    evaluate_model model loader device criterion false =
      (inferenceModel model,
       ⟨List.replicate loader.length false, []⟩,
       Except.ok
         ((batchLosses (inferenceModel model) criterion loader).sum / (loader.length : ℚ),
          precision_score (labelsFlat loader) (predsFlat (inferenceModel model) loader),
          recall_score (labelsFlat loader) (predsFlat (inferenceModel model) loader),
          accuracy_score (labelsFlat loader) (predsFlat (inferenceModel model) loader))) := by
  have hlen : loader.length ≠ 0 := fun h0 => h (List.length_eq_zero.mp h0)
  simp only [evaluate_model, evalLoop_eq]
  simp [inferenceModel, labelsFlat, predsFlat, batchLosses, hlen]

/-- Closed form of `evaluate_model` on a non-empty loader with visualization,
when the visualization step succeeds: same metrics, and the plots show one
figure per stored point cloud whose colour arguments are taken positionally
from the flattened label and prediction lists. -/
theorem evaluate_model_eq_vis (model : SegModel) (loader : List Batch)
    (device : String) (criterion : Criterion) (h : loader ≠ [])
    (plots : List (PlotFig Nat))
    (hv : visualize_predictions (storedClouds loader) (labelsFlat loader)
      (predsFlat (inferenceModel model) loader) = some plots) :
    evaluate_model model loader device criterion true =
      (inferenceModel model,
       ⟨List.replicate loader.length false, plots⟩,
       Except.ok
         ((batchLosses (inferenceModel model) criterion loader).sum / (loader.length : ℚ),
          precision_score (labelsFlat loader) (predsFlat (inferenceModel model) loader),
          recall_score (labelsFlat loader) (predsFlat (inferenceModel model) loader),
          accuracy_score (labelsFlat loader) (predsFlat (inferenceModel model) loader))) := by
  have hlen : loader.length ≠ 0 := fun h0 => h (List.length_eq_zero.mp h0)
  simp only [evaluate_model, evalLoop_eq]
  simp only [inferenceModel, labelsFlat, predsFlat, batchLosses, storedClouds] at hv ⊢
  simp [hlen, hv]

/-- The first component returned by `evaluate_model` is always the input model
with only its training flag cleared, and every forward pass in the loop runs
with gradients disabled. -/
theorem evaluate_model_frame (model : SegModel) (loader : List Batch)
    (device : String) (criterion : Criterion) (visualize : Bool) :
    (evaluate_model model loader device criterion visualize).1 = inferenceModel model ∧
    (evaluate_model model loader device criterion visualize).2.1.gradFlags =
      List.replicate loader.length false := by
  simp only [evaluate_model, evalLoop_eq, inferenceModel]
  split
  · simp
  · split
    · simp
    · simp

/-- Number of batches produced by the loader model: the ceiling of dataset
size over batch size. -/
theorem toBatches_length {α : Type} (B : Nat) (hB : 0 < B) :
    ∀ xs : List α, (toBatches xs B).length = (xs.length + B - 1) / B := by
  have H : ∀ (n : Nat) (xs : List α), xs.length = n →
      (toBatches xs B).length = (xs.length + B - 1) / B := by
    intro n
    induction n using Nat.strong_induction_on with
    | _ n ih =>
      intro xs hxs
      rw [toBatches]
      by_cases h0 : xs.length = 0
      · rw [dif_pos (Or.inl h0), h0]
        have : (B - 1) / B = 0 := Nat.div_eq_of_lt (Nat.sub_lt hB Nat.one_pos)
        simpa using this.symm
      · rw [dif_neg (by push_neg; exact ⟨h0, by omega⟩)]
        have hdrop : (xs.drop B).length = xs.length - B := List.length_drop B xs
        have hlt : xs.length - B < n := by
          rw [← hxs]; exact Nat.sub_lt (Nat.pos_of_ne_zero h0) hB
        have hrec := ih (xs.length - B) (by rw [← hxs] at hlt ⊢; exact hlt)
          (xs.drop B) hdrop
        rw [List.length_cons, hrec, hdrop]
        by_cases hle : xs.length ≤ B
        · have hz : xs.length - B = 0 := Nat.sub_eq_zero_of_le hle
          rw [hz]
          have h1 : (B - 1) / B = 0 := Nat.div_eq_of_lt (Nat.sub_lt hB Nat.one_pos)
          have h2 : (xs.length + B - 1) / B = 1 := by
            apply Nat.div_eq_of_lt_le
            · omega
            · omega
          simpa [h1] using h2.symm
        · push_neg at hle
          have h1 : xs.length - B + B - 1 = xs.length - 1 := by omega
          have h2 : xs.length + B - 1 = (xs.length - 1) + B := by omega
          rw [h1, h2, Nat.add_div_right _ hB]
  intro xs
  exact H xs.length xs rfl

/-- One training epoch performs exactly one optimizer step per yielded
batch. -/
theorem trainEpoch_stepCount (env : Env) (m : SegModel) (criterion : Criterion)
    (lr wd : ℚ) (params0 : List ℚ) (batches : List Batch) :
    (trainEpoch env m criterion lr wd params0 batches).stepCount = batches.length := by
  have H : ∀ (bs : List Batch) (st : TrainState),
      (bs.foldl (trainStep env m criterion lr wd) st).stepCount =
        st.stepCount + bs.length := by
    intro bs
    induction bs with
    | nil => intro st; simp
    | cons b l ih =>
      intro st
      simp only [List.foldl_cons]
      rw [ih]
      simp only [trainStep, List.length_cons]
      omega

  simpa [trainEpoch] using H batches ⟨params0, 0, []⟩

/-- Zipping a list with itself pairs every element with itself. -/
theorem zip_diag (ys : List Nat) : ys.zip ys = ys.map (fun a => (a, a)) := by
  induction ys with
  | nil => rfl
  | cons a l ih => simp [ih]

/-- On a diagonal pair list, per-class precision of every class that occurs
is 1. -/
theorem precClass_diag (ys : List Nat) (l : Nat) (hl : l ∈ ys) :
    precClass (ys.zip ys) l = 1 := by
  have hpred : predCount (ys.zip ys) l = ys.countP (fun a => a == l) := by
    rw [zip_diag]; unfold predCount; rw [List.countP_map]; rfl
  have htp : tpCount (ys.zip ys) l = ys.countP (fun a => a == l) := by
    rw [zip_diag]; unfold tpCount; rw [List.countP_map]
    apply List.countP_congr
    intro a _
    simp [Function.comp]
  have hpos : 0 < ys.countP (fun a => a == l) :=
    List.countP_pos_iff.mpr ⟨l, hl, by simp⟩
  unfold precClass
  rw [hpred, htp, if_neg (by omega)]
  exact div_self (Nat.cast_ne_zero.mpr (by omega))

/-- On a diagonal pair list, per-class recall of every class that occurs
is 1. -/
theorem recallClass_diag (ys : List Nat) (l : Nat) (hl : l ∈ ys) :
    recallClass (ys.zip ys) l = 1 := by
  have htrue : trueCount (ys.zip ys) l = ys.countP (fun a => a == l) := by
    rw [zip_diag]; unfold trueCount; rw [List.countP_map]; rfl
  have htp : tpCount (ys.zip ys) l = ys.countP (fun a => a == l) := by
    rw [zip_diag]; unfold tpCount; rw [List.countP_map]
    apply List.countP_congr
    intro a _
    simp [Function.comp]
  have hpos : 0 < ys.countP (fun a => a == l) :=
    List.countP_pos_iff.mpr ⟨l, hl, by simp⟩
  unfold recallClass
  rw [htrue, htp, if_neg (by omega)]
  exact div_self (Nat.cast_ne_zero.mpr (by omega))

/-- Every class label considered for a pass where predictions equal truths
occurs in the truth list. -/
theorem classLabels_diag_mem (ys : List Nat) (l : Nat)
    (hl : l ∈ classLabels ys ys) : l ∈ ys := by
  have := List.mem_dedup.mp hl
  simpa using this

/-- Macro precision of a pass whose predictions equal its truths is 1. -/
theorem precision_score_self (ys : List Nat) (h : ys ≠ []) :
    precision_score ys ys = 1 := by
  obtain ⟨a, ha⟩ := List.exists_mem_of_ne_nil ys h
  have hmem : a ∈ classLabels ys ys :=
    List.mem_dedup.mpr (List.mem_append.mpr (Or.inl ha))
  have hne : classLabels ys ys ≠ [] := fun h0 => by simp [h0] at hmem
  have hlen : (classLabels ys ys).length ≠ 0 := fun h0 => hne (List.length_eq_zero.mp h0)
  unfold precision_score
  rw [if_neg hlen]
  rw [List.map_congr_left
    (fun l hl => precClass_diag ys l (classLabels_diag_mem ys l hl))]
  rw [List.map_const', List.sum_replicate]
  simp only [nsmul_eq_mul, mul_one]
  exact div_self (Nat.cast_ne_zero.mpr hlen)

/-- Macro recall of a pass whose predictions equal its truths is 1. -/
theorem recall_score_self (ys : List Nat) (h : ys ≠ []) :
    recall_score ys ys = 1 := by
  obtain ⟨a, ha⟩ := List.exists_mem_of_ne_nil ys h
  have hmem : a ∈ classLabels ys ys :=
    List.mem_dedup.mpr (List.mem_append.mpr (Or.inl ha))
  have hne : classLabels ys ys ≠ [] := fun h0 => by simp [h0] at hmem
  have hlen : (classLabels ys ys).length ≠ 0 := fun h0 => hne (List.length_eq_zero.mp h0)
  unfold recall_score
  rw [if_neg hlen]
  rw [List.map_congr_left
    (fun l hl => recallClass_diag ys l (classLabels_diag_mem ys l hl))]
  rw [List.map_const', List.sum_replicate]
  simp only [nsmul_eq_mul, mul_one]
  exact div_self (Nat.cast_ne_zero.mpr hlen)

/-- Accuracy of a pass whose predictions equal its truths is 1. -/
theorem accuracy_score_self (ys : List Nat) (h : ys ≠ []) :
    accuracy_score ys ys = 1 := by
  have hlen : ys.length ≠ 0 := fun h0 => h (List.length_eq_zero.mp h0)
  have hcnt : ys.countP ((fun (q : Nat × Nat) => q.1 == q.2) ∘ fun a => (a, a)) =
      ys.countP (fun _ => true) := by
    apply List.countP_congr
    intro a _
    simp [Function.comp]
  simp only [accuracy_score, zip_diag, List.countP_map, List.length_map, hcnt,
    List.countP_true]
  rw [if_neg hlen]
  exact div_self (Nat.cast_ne_zero.mpr hlen)

/-- Per-class precision lies in the unit interval. -/
theorem precClass_unit (pairs : List (Nat × Nat)) (l : Nat) :
    0 ≤ precClass pairs l ∧ precClass pairs l ≤ 1 := by
  unfold precClass
  split
  · norm_num
  · rename_i hne
    have hpos : (0 : ℚ) < (predCount pairs l : ℚ) := by
      exact_mod_cast Nat.pos_of_ne_zero hne
    refine ⟨div_nonneg (Nat.cast_nonneg _) hpos.le, ?_⟩
    rw [div_le_one hpos]
    have hle : tpCount pairs l ≤ predCount pairs l := by
      unfold tpCount predCount
      apply List.countP_mono_left
      intro x _ hx
      simp only [Bool.and_eq_true] at hx
      exact hx.2
    exact_mod_cast hle

/-- Per-class recall lies in the unit interval. -/
theorem recallClass_unit (pairs : List (Nat × Nat)) (l : Nat) :
    0 ≤ recallClass pairs l ∧ recallClass pairs l ≤ 1 := by
  unfold recallClass
  split
  · norm_num
  · rename_i hne
    have hpos : (0 : ℚ) < (trueCount pairs l : ℚ) := by
      exact_mod_cast Nat.pos_of_ne_zero hne
    refine ⟨div_nonneg (Nat.cast_nonneg _) hpos.le, ?_⟩
    rw [div_le_one hpos]
    have hle : tpCount pairs l ≤ trueCount pairs l := by
      unfold tpCount trueCount
      apply List.countP_mono_left
      intro x _ hx
      simp only [Bool.and_eq_true] at hx
      exact hx.1
    exact_mod_cast hle

/-- The average of a list of unit-interval rationals (0 on the empty list)
lies in the unit interval. -/
theorem avg_unit (L : List ℚ) (hL : ∀ x ∈ L, 0 ≤ x ∧ x ≤ 1) :
    0 ≤ L.sum / (L.length : ℚ) ∧ L.sum / (L.length : ℚ) ≤ 1 := by
  rcases eq_or_ne L [] with rfl | hne
  · simp
  · have hpos : (0 : ℚ) < (L.length : ℚ) := by
      exact_mod_cast List.length_pos.mpr hne
    constructor
    · exact div_nonneg (List.sum_nonneg (fun x hx => (hL x hx).1)) hpos.le
    · rw [div_le_one hpos]
      have := List.sum_le_card_nsmul L 1 (fun x hx => (hL x hx).2)
      simpa [nsmul_eq_mul] using this

/-- Macro precision lies in the unit interval. -/
theorem precision_score_unit (yt yp : List Nat) :
    0 ≤ precision_score yt yp ∧ precision_score yt yp ≤ 1 := by
  by_cases h0 : (classLabels yt yp).length = 0
  · simp [precision_score, h0]
  · have h := avg_unit ((classLabels yt yp).map (precClass (yt.zip yp)))
      (by
        intro x hx
        obtain ⟨l, _, rfl⟩ := List.mem_map.mp hx
        exact precClass_unit (yt.zip yp) l)
    rw [List.length_map] at h
    simpa [precision_score, h0] using h

/-- Macro recall lies in the unit interval. -/
theorem recall_score_unit (yt yp : List Nat) :
    0 ≤ recall_score yt yp ∧ recall_score yt yp ≤ 1 := by
  by_cases h0 : (classLabels yt yp).length = 0
  · simp [recall_score, h0]
  · have h := avg_unit ((classLabels yt yp).map (recallClass (yt.zip yp)))
      (by
        intro x hx
        obtain ⟨l, _, rfl⟩ := List.mem_map.mp hx
        exact recallClass_unit (yt.zip yp) l)
    rw [List.length_map] at h
    simpa [recall_score, h0] using h

/-- Accuracy lies in the unit interval. -/
theorem accuracy_score_unit (yt yp : List Nat) :
    0 ≤ accuracy_score yt yp ∧ accuracy_score yt yp ≤ 1 := by
  by_cases h0 : (yt.zip yp).length = 0
  · simp [accuracy_score, h0]
  · have hpos : (0 : ℚ) < ((yt.zip yp).length : ℚ) := by
      exact_mod_cast Nat.pos_of_ne_zero h0
    simp only [accuracy_score]
    rw [if_neg h0]
    refine ⟨div_nonneg (Nat.cast_nonneg _) hpos.le, ?_⟩
    rw [div_le_one hpos]
    exact_mod_cast List.countP_le_length (fun q : Nat × Nat => q.1 == q.2)

/-- Every epoch of the loop performs one optimizer step per batch of a
freshly shuffled train loader: with a length-preserving shuffle, every
per-epoch step count is the ceiling of dataset size over batch size. -/
theorem epochLoop_stepCounts (env : Env) (criterion : Criterion)
    (device : String) (lr wd : ℚ) (B : Nat) (trainDs valDs : List Sample)
    (hB : 0 < B)
    (hshuf : ∀ i, (env.shuffleSeq i trainDs).length = trainDs.length) :
    ∀ (m : SegModel) (e k : Nat),
      ((epochLoop env criterion device lr wd B trainDs valDs m e k).1.map
        EpochLog.stepCount) =
        List.replicate k ((trainDs.length + B - 1) / B) := by
  intro m e k
  induction k generalizing m e with
  | zero => simp [epochLoop]
  | succ k ih =>
    simp only [epochLoop, List.map_cons, ih]
    rw [trainEpoch_stepCount]
    simp [makeLoader, toBatches_length B hB, hshuf, List.replicate_succ]

/-!  Claim theorems. -/

/-- C1: for every model, batch source, device and loss function,
`evaluate_model` switches the model to inference mode, runs every forward pass
with gradient tracking disabled, computes each batch's predictions as the
arg-max of the model outputs over the class dimension, accumulates predictions
and ground-truth labels over every batch, and returns exactly four values: the
mean of the per-batch losses, macro precision, macro recall, and accuracy over
the full (flattened) pass. -/
theorem claim_C1 (model : SegModel) (loader : List Batch) (device : String)
    (criterion : Criterion) (h : loader ≠ []) :
    evaluate_model model loader device criterion false =
      (inferenceModel model,
       ⟨List.replicate loader.length false, []⟩,
       Except.ok
         ((batchLosses (inferenceModel model) criterion loader).sum / (loader.length : ℚ),
          precision_score (labelsFlat loader) (predsFlat (inferenceModel model) loader),
          recall_score (labelsFlat loader) (predsFlat (inferenceModel model) loader),
          accuracy_score (labelsFlat loader) (predsFlat (inferenceModel model) loader))) :=
  evaluate_model_eq model loader device criterion h

/-- C1 witness: the closed form evaluated on a concrete one-batch pass. -/
theorem claim_C1_witness :
    evaluate_model testModel [batchA] "cpu" zeroCriterion false =
      (inferenceModel testModel, ⟨[false], []⟩,
       Except.ok (0, 1 / 3, 1 / 2, 2 / 3)) := by
  rw [claim_C1 testModel [batchA] "cpu" zeroCriterion (by simp)]
  have h1 : labelsFlat [batchA] = [0, 1, 0] := by decide
  have h2 : predsFlat (inferenceModel testModel) [batchA] = [0, 0, 0] := by decide
  have h3 : batchLosses (inferenceModel testModel) zeroCriterion [batchA] = [0] := rfl
  have hp : precision_score [0, 1, 0] [0, 0, 0] = 1 / 3 := by
    norm_num [precision_score, classLabels, precClass, tpCount, predCount, List.dedup]
  have hr : recall_score [0, 1, 0] [0, 0, 0] = 1 / 2 := by
    norm_num [recall_score, classLabels, recallClass, tpCount, trueCount, List.dedup]
  have ha : accuracy_score [0, 1, 0] [0, 0, 0] = 2 / 3 := by
    norm_num [accuracy_score]
  rw [h1, h2, h3, hp, hr, ha]
  norm_num

/-- C2: on an empty batch source, `evaluate_model` raises a division-by-zero
error while computing the mean loss, rather than returning any metric
values. -/
theorem claim_C2 (model : SegModel) (device : String) (criterion : Criterion)
    (visualize : Bool) :
    evaluate_model model [] device criterion visualize =
      (inferenceModel model, ⟨[], []⟩,
       Except.error "ZeroDivisionError: division by zero") :=
  rfl

/-- C3 (code-bug evidence): with `visualize=True`, on a pass of one batch
containing one three-point cloud with labels `[0, 1, 0]`, `evaluate_model`
shows one figure per sample, but its colour arguments are the scalar entries
`all_labels[0]` and `all_preds[0]` of the already-flattened lists (both `0`
here), not the sample's per-point label array `[0, 1, 0]` and per-point
prediction array `[0, 0, 0]` that the claim describes. -/
theorem claim_C3 :
    evaluate_model testModel [batchA] "cpu" zeroCriterion true =
      (inferenceModel testModel,
       ⟨[false], [⟨pcA, 0, 0⟩]⟩,
       Except.ok (0, 1 / 3, 1 / 2, 2 / 3)) ∧
    batchA.labels = [[0, 1, 0]] ∧
    predRows (inferenceModel testModel) [batchA] = [[0, 0, 0]] := by
  refine ⟨?_, rfl, by decide⟩
  have h1 : labelsFlat [batchA] = [0, 1, 0] := by decide
  have h2 : predsFlat (inferenceModel testModel) [batchA] = [0, 0, 0] := by decide
  have h3 : storedClouds [batchA] = [pcA] := rfl
  have hv : visualize_predictions [pcA] [0, 1, 0] [0, 0, 0] =
      some [⟨pcA, 0, 0⟩] := rfl
  rw [evaluate_model_eq_vis testModel [batchA] "cpu" zeroCriterion (by simp)
    [⟨pcA, 0, 0⟩] (by rw [h1, h2, h3]; exact hv)]
  have h4 : batchLosses (inferenceModel testModel) zeroCriterion [batchA] = [0] := rfl
  have hp : precision_score [0, 1, 0] [0, 0, 0] = 1 / 3 := by
    norm_num [precision_score, classLabels, precClass, tpCount, predCount, List.dedup]
  have hr : recall_score [0, 1, 0] [0, 0, 0] = 1 / 2 := by
    norm_num [recall_score, classLabels, recallClass, tpCount, trueCount, List.dedup]
  have ha : accuracy_score [0, 1, 0] [0, 0, 0] = 2 / 3 := by
    norm_num [accuracy_score]
  rw [h1, h2, h4, hp, hr, ha]
  norm_num

/-- C4: on every non-empty pass whose flattened predictions coincide with the
flattened ground-truth labels (and at least one point was labelled),
`evaluate_model` returns macro precision 1, macro recall 1, and accuracy 1. -/
theorem claim_C4 (model : SegModel) (loader : List Batch) (device : String)
    (criterion : Criterion) (h1 : loader ≠ [])
    (h2 : predsFlat (inferenceModel model) loader = labelsFlat loader)
    (h3 : labelsFlat loader ≠ []) :
    ∃ L, (evaluate_model model loader device criterion false).2.2 =
      Except.ok (L, 1, 1, 1) := by
  refine ⟨(batchLosses (inferenceModel model) criterion loader).sum /
    (loader.length : ℚ), ?_⟩
  rw [evaluate_model_eq model loader device criterion h1]
  rw [h2, precision_score_self _ h3, recall_score_self _ h3,
    accuracy_score_self _ h3]

/-- C4 witness: a concrete perfect pass (labels `[0, 0]`, predictions
`[0, 0]`) yields metrics `(1, 1, 1)`. -/
theorem claim_C4_witness :
    predsFlat (inferenceModel testModel) [batchB] = labelsFlat [batchB] ∧
    labelsFlat [batchB] = [0, 0] ∧
    ∃ L, (evaluate_model testModel [batchB] "cpu" zeroCriterion false).2.2 =
      Except.ok (L, 1, 1, 1) :=
  ⟨rfl, rfl,
   claim_C4 testModel [batchB] "cpu" zeroCriterion (by simp) rfl (by decide)⟩

/-- C5: one training epoch over a train dataset of `N` samples with batch
size `B > 0` performs exactly `⌈N / B⌉ = (N + B - 1) / B` optimizer steps
(one `optimizer.step()` per yielded batch), in every epoch of the run. -/
theorem claim_C5 (env : Env) (args : Args)
    (hB : 0 < args.batch_size.toNat)
    (hshuf : ∀ (i : Nat) (ds : List Sample),
      (env.shuffleSeq i ds).length = ds.length) :
    (mainRun env args).epochLogs.map EpochLog.stepCount =
      List.replicate args.epoch.toNat
        (((env.dataset env.file_names args.num_points true "train").length +
          args.batch_size.toNat - 1) / args.batch_size.toNat) := by
  simp only [mainRun]
  exact epochLoop_stepCounts env env.get_loss _ args.learning_rate
    args.decay_rate _ _ _ hB (fun i => hshuf i _) env.initModel 0
    args.epoch.toNat

/-- C5 witness: three train samples, batch size 2, one epoch: exactly
`⌈3 / 2⌉ = 2` optimizer steps. -/
theorem claim_C5_witness :
    0 < argsW.batch_size.toNat ∧
    (mainRun testEnv argsW).epochLogs.map EpochLog.stepCount = [2] :=
  ⟨by decide,
   (claim_C5 testEnv argsW (by decide) (fun _ _ => rfl)).trans (by rfl)⟩

/-- C6: when every batch of the pass contributes the same number `E` of
per-point entries (both in its labels and in its prediction rows), the
flattened label and prediction lists each have length
`number of batches × E`. -/
theorem claim_C6 (model : SegModel) (loader : List Batch) (E : Nat)
    (h1 : loader ≠ [])
    (h2 : ∀ b ∈ loader, b.labels.flatten.length = E ∧
      (batchPredRows (inferenceModel model) b).flatten.length = E) :
    (labelsFlat loader).length = loader.length * E ∧
    (predsFlat (inferenceModel model) loader).length = loader.length * E := by
  clear h1
  have H : ∀ lo : List Batch,
      (∀ b ∈ lo, b.labels.flatten.length = E ∧
        (batchPredRows (inferenceModel model) b).flatten.length = E) →
      (labelsFlat lo).length = lo.length * E ∧
      (predsFlat (inferenceModel model) lo).length = lo.length * E := by
    intro lo
    induction lo with
    | nil => intro _; simp [labelsFlat, predsFlat, labelRows, predRows]
    | cons b l ih =>
      intro hlo
      have hb := hlo b (List.mem_cons_self b l)
      have hl := ih (fun x hx => hlo x (List.mem_cons_of_mem b hx))
      constructor
      · have : labelsFlat (b :: l) = b.labels.flatten ++ labelsFlat l := by
          simp [labelsFlat, labelRows]
        rw [this, List.length_append, hb.1, hl.1, List.length_cons]
        ring
      · have : predsFlat (inferenceModel model) (b :: l) =
            (batchPredRows (inferenceModel model) b).flatten ++
            predsFlat (inferenceModel model) l := by
          simp [predsFlat, predRows]
        rw [this, List.length_append, hb.2, hl.2, List.length_cons]
        ring
  exact H loader h2

/-- C6 witness: two uniform batches of three per-point entries each give
flattened lists of length 2 × 3 = 6. -/
theorem claim_C6_witness :
    (labelsFlat [batchA, batchA]).length = 2 * 3 ∧
    (predsFlat (inferenceModel testModel) [batchA, batchA]).length = 2 * 3 :=
  claim_C6 testModel [batchA, batchA] 3 (by simp) (by decide)

/-- C7: on any non-empty batch source, with a nonnegative loss function (as
the segmentation loss is), `evaluate_model` returns four (finite, rational)
values with loss at least 0 and precision, recall and accuracy each in
`[0, 1]`. -/
theorem claim_C7 (model : SegModel) (loader : List Batch) (device : String)
    (criterion : Criterion) (h1 : loader ≠ [])
    (h2 : ∀ (o : List (List (List ℚ))) (lb : List (List Nat)), 0 ≤ criterion o lb) :
    ∃ L P R A,
      (evaluate_model model loader device criterion false).2.2 =
        Except.ok (L, P, R, A) ∧
      0 ≤ L ∧ 0 ≤ P ∧ P ≤ 1 ∧ 0 ≤ R ∧ R ≤ 1 ∧ 0 ≤ A ∧ A ≤ 1 := by
  rw [evaluate_model_eq model loader device criterion h1]
  refine ⟨_, _, _, _, rfl, ?_, ?_, ?_, ?_, ?_, ?_, ?_⟩
  · apply div_nonneg _ (Nat.cast_nonneg _)
    apply List.sum_nonneg
    intro x hx
    obtain ⟨b, _, rfl⟩ := List.mem_map.mp hx
    exact h2 _ _
  · exact (precision_score_unit _ _).1
  · exact (precision_score_unit _ _).2
  · exact (recall_score_unit _ _).1
  · exact (recall_score_unit _ _).2
  · exact (accuracy_score_unit _ _).1
  · exact (accuracy_score_unit _ _).2

/-- C7 witness: the bounds instantiated on a concrete one-batch pass with the
zero loss function. -/
theorem claim_C7_witness :
    ∃ L P R A,
      (evaluate_model testModel [batchA] "cpu" zeroCriterion false).2.2 =
        Except.ok (L, P, R, A) ∧
      0 ≤ L ∧ 0 ≤ P ∧ P ≤ 1 ∧ 0 ≤ R ∧ R ≤ 1 ∧ 0 ≤ A ∧ A ≤ 1 :=
  claim_C7 testModel [batchA] "cpu" zeroCriterion (by simp)
    (fun _ _ => le_refl 0)

/-- C8: the parser registers exactly the eleven claimed flags with the
claimed kinds, parsing an empty command line yields exactly the claimed
defaults (`batch_size` 24, `epoch` 100, `learning_rate` 0.001, `num_points`
1024, `decay_rate` 0.0001, boolean flags off, `log_dir` absent), and a
supplied flag overrides its default. -/
theorem claim_C8 :
    parse_args [] = some defaultArgs ∧
    defaultArgs =
      { use_cpu := false, gpu := "0", batch_size := 24,
        model := "pointnet2_cls_ssg", epoch := 100, learning_rate := 1 / 1000,
        num_points := 1024, optimizer := "Adam", log_dir := none,
        decay_rate := 1 / 10000, use_normals := false } ∧
    argSpecs.map ArgSpec.flag =
      ["--use_cpu", "--gpu", "--batch_size", "--model", "--epoch",
       "--learning_rate", "--num_points", "--optimizer", "--log_dir",
       "--decay_rate", "--use_normals"] ∧
    argSpecs.map ArgSpec.action =
      [.storeTrue, .strArg, .intArg, .strArg, .intArg, .floatArg, .intArg,
       .strArg, .strArg, .floatArg, .storeTrue] ∧
    parse_args ["--gpu", "1", "--use_cpu"] =
      some { defaultArgs with gpu := "1", use_cpu := true } :=
  ⟨rfl, rfl, rfl, rfl, rfl⟩

/-- C9: `main` never reads `--optimizer`, `--model`, `--gpu`, `--log_dir` or
`--use_normals`: two argument records agreeing on the six fields `main` does
read produce identical runs, and the optimizer is always Adam with the given
learning rate and decay rate. -/
theorem claim_C9 (env : Env) (a1 a2 : Args)
    (h1 : a1.use_cpu = a2.use_cpu) (h2 : a1.batch_size = a2.batch_size)
    (h3 : a1.epoch = a2.epoch) (h4 : a1.learning_rate = a2.learning_rate)
    (h5 : a1.num_points = a2.num_points) (h6 : a1.decay_rate = a2.decay_rate) :
    mainRun env a1 = mainRun env a2 ∧
    (mainRun env a1).optim = ⟨"Adam", a1.learning_rate, a1.decay_rate⟩ := by
  constructor
  · simp only [mainRun]
    rw [h1, h2, h3, h4, h5, h6]
  · rfl

/-- C9 witness: two concrete argument records differing exactly in the five
dead fields produce identical runs. -/
theorem claim_C9_witness :
    mainRun testEnv argsW = mainRun testEnv argsW2 ∧
    (mainRun testEnv argsW).optim = ⟨"Adam", argsW.learning_rate, argsW.decay_rate⟩ :=
  claim_C9 testEnv argsW argsW2 rfl rfl rfl rfl rfl rfl

/-- C10: `evaluate_model` never modifies the model's parameters (nor its
forward function): only the training flag is cleared, and the whole pass runs
with gradient tracking disabled and performs no optimizer step. -/
theorem claim_C10 (model : SegModel) (loader : List Batch) (device : String)
    (criterion : Criterion) (visualize : Bool) :
    (evaluate_model model loader device criterion visualize).1.params = model.params ∧
    (evaluate_model model loader device criterion visualize).1.forward = model.forward ∧
    (evaluate_model model loader device criterion visualize).2.1.gradFlags =
      List.replicate loader.length false := by
  have h := evaluate_model_frame model loader device criterion visualize
  refine ⟨?_, ?_, h.2⟩ <;> rw [h.1] <;> rfl

end RunPointnet
